import Mathlib

/-!
A shallow embedding of `src/bin/conf.py`, the single module of the
splunk-jira repository.  The module reads JIRA instance definitions from a
parsed ini file (a Python 2 `ConfigParser` object): every stanza whose name
begins with `instance-` defines one instance, and an optional stanza
`default-instance` may name which instance is also published under the key
`default`.

The embedding models the parsed configuration object directly (the claims
quantify over `ConfigFile`, the in-memory data model): a list of named
sections, each an option/value mapping.  `ConfigParser` stores sections and
options in dictionaries, so section names are unique in a file and option
names are unique in a section; the structures carry those invariants.
Python dictionaries are modelled as association lists with Python insert
and lookup semantics, Python string operations (`startswith`, slicing,
`x or y` defaulting) are modelled on the code-point list of the string, and
a raised `KeyError` is modelled as `none`.
-/

namespace Conf

/-- Python `s.startswith(p)`, i.e. `s[:len(p)] == p`, on code points. -/
def pyStartswith (s p : String) : Bool :=
  s.data.take p.data.length == p.data

/-- Python slice `s[n:]` on code points. -/
def pyDrop (s : String) (n : Nat) : String :=
  String.mk (s.data.drop n)

/-- Python `name or default` for an optional string: `None` and the empty
string are falsy, so both fall back to the default. -/
def pyOrElse (name : Option String) (dflt : String) : String :=
  match name with
  | none => dflt
  | some n => if n = "" then dflt else n

/-- One stanza of the parsed ini file: its name and its option/value pairs.
`ConfigParser` keeps the options of a section in a dictionary, so option
names within a section are unique. -/
structure ConfigSection where
  name : String
  items : List (String × String)
  itemsNodup : (items.map Prod.fst).Nodup

instance : DecidableEq ConfigSection := fun a b =>
  decidable_of_iff (a.name = b.name ∧ a.items = b.items) (by
    cases a
    cases b
    constructor
    · rintro ⟨h1, h2⟩
      cases h1
      cases h2
      rfl
    · intro h
      cases h
      exact ⟨rfl, rfl⟩)

/-- The parsed configuration (the `ConfigParser` object): an ordered list of
sections.  `ConfigParser` keeps sections in a dictionary keyed by name, so
section names are unique. -/
structure ConfigFile where
  sectionList : List ConfigSection
  namesNodup : (sectionList.map ConfigSection.name).Nodup

/-- Python dictionary lookup `d[k]`: `none` models a raised `KeyError`. -/
def dictGet {V : Type} (d : List (String × V)) (k : String) : Option V :=
  (d.find? (fun p => p.1 == k)).map Prod.snd

/-- Python dictionary assignment `d[k] = v`: overwrite in place when the key
is present, append otherwise. -/
def dictInsert {V : Type} (d : List (String × V)) (k : String) (v : V) :
    List (String × V) :=
  if d.any (fun p => p.1 == k) then
    d.map (fun p => if p.1 == k then (k, v) else p)
  else d ++ [(k, v)]

/-- Python `dict(pairs)` (also the dict comprehension): insert the pairs in
order into an empty dictionary. -/
def buildDict {V : Type} (l : List (String × V)) : List (String × V) :=
  l.foldl (fun d p => dictInsert d p.1 p.2) []

/-- `config.sections()`: the list of section names. -/
def sections (c : ConfigFile) : List String :=
  c.sectionList.map ConfigSection.name

/-- `config.has_section(s)`. -/
def has_section (c : ConfigFile) (s : String) : Bool :=
  (sections c).contains s

/-- `config.items(s)`: the option/value pairs of section `s` (used only on
sections known to exist; a missing section yields no pairs). -/
def configItems (c : ConfigFile) (s : String) : List (String × String) :=
  match c.sectionList.find? (fun sec => sec.name == s) with
  | some sec => sec.items
  | none => []

/-- `config.has_option(s, o)`. -/
def has_option (c : ConfigFile) (s o : String) : Bool :=
  (configItems c s).any (fun p => p.1 == o)

/-- `config.get(s, o)` as an option (used only under a `has_option` guard,
where it returns the stored text value). -/
def configGet (c : ConfigFile) (s o : String) : Option String :=
  dictGet (configItems c s) o

/-- `INSTANCE_SECTION_PREFIX = 'instance-'` from `conf.py`. -/
def INSTANCE_SECTION_MARK : String := "instance-"

/-- `INSTANCE_NAME_OFFSET = len(INSTANCE_SECTION_PREFIX)` from `conf.py`. -/
def INSTANCE_NAME_OFFSET : Nat := INSTANCE_SECTION_MARK.length

/-- `DEFAULT_INSTANCE_SECTION = 'default-instance'` from `conf.py`. -/
def DEFAULT_INSTANCE_SECTION : String := "default-instance"

/-- `get_jira_instances(config)` from `conf.py`: collect the sections whose
name starts with the instance marker into a dictionary keyed by the name
with the marker stripped, then, when the `default-instance` stanza names a
(truthy) default, also publish that instance under the key `default`.
A `KeyError` on the default lookup is modelled as `none`. -/
def get_jira_instances (config : ConfigFile) :
    Option (List (String × List (String × String))) :=
  let instance_sections :=
    (sections config).filter (fun s => pyStartswith s INSTANCE_SECTION_MARK)
  let jira_instances :=
    buildDict (instance_sections.map
      (fun s => (pyDrop s INSTANCE_NAME_OFFSET, buildDict (configItems config s))))
  let default_instance : Option String :=
    if has_section config DEFAULT_INSTANCE_SECTION
        && has_option config DEFAULT_INSTANCE_SECTION "name" then
      configGet config DEFAULT_INSTANCE_SECTION "name"
    else none
  match default_instance with
  | none => some jira_instances
  | some d =>
    if d = "" then some jira_instances
    else
      match dictGet jira_instances d with
      | some v => some (dictInsert jira_instances "default" v)
      | none => none

/-- `get_jira_instance(name, config)` from `conf.py`: build the instance
table and look up `name or 'default'`; `none` models a raised `KeyError`
(from either the table construction or the final lookup). -/
def get_jira_instance (name : Option String) (config : ConfigFile) :
    Option (List (String × String)) :=
  match get_jira_instances config with
  | some jira_instances => dictGet jira_instances (pyOrElse name "default")
  | none => none

/-- The instance names discovered in a configuration: the names of the
sections starting with the instance marker, with the marker stripped. -/
def instanceNames (c : ConfigFile) : List String :=
  ((sections c).filter (fun s => pyStartswith s INSTANCE_SECTION_MARK)).map
    (fun s => pyDrop s INSTANCE_NAME_OFFSET)

/-- The configuration a missing or empty `config.ini` parses to:
`ConfigParser.read` silently ignores a missing file and an empty file has
no sections, so the parsed object has an empty section list. -/
def emptyConfig : ConfigFile :=
  ⟨[], List.nodup_nil⟩

/-- The sections whose name starts with the instance marker. -/
def instanceSections (c : ConfigFile) : List ConfigSection :=
  c.sectionList.filter (fun s => pyStartswith s.name INSTANCE_SECTION_MARK)

/-- The instance table before default aliasing: one entry per marked
section, keyed by the section name with the marker stripped, holding the
section items. -/
def baseTable (c : ConfigFile) : List (String × List (String × String)) :=
  (instanceSections c).map (fun s => (pyDrop s.name INSTANCE_NAME_OFFSET, s.items))

/-- The `default_instance` value computed inside `get_jira_instances`: the
`name` option of the `default-instance` section when that section and
option exist, `None` otherwise. -/
def defaultAlias (c : ConfigFile) : Option String :=
  if has_section c DEFAULT_INSTANCE_SECTION
      && has_option c DEFAULT_INSTANCE_SECTION "name" then
    configGet c DEFAULT_INSTANCE_SECTION "name"
  else none

/-! Concrete configurations used to check the claims on explicit inputs. -/

/-- Options of a first sample instance. -/
def itemsA : List (String × String) :=
  [("hostname", "jira.example.com"), ("username", "admin")]

/-- Options of a second sample instance. -/
def itemsB : List (String × String) :=
  [("hostname", "jira.other.com"), ("password", "changeme")]

/-- Two instance sections and no `default-instance` section. -/
def cfgTwo : ConfigFile :=
  ⟨[⟨"instance-a", itemsA, by decide⟩, ⟨"instance-b", itemsB, by decide⟩],
    by decide⟩

/-- A `default-instance` section whose `name` option is the empty string,
and no instance sections at all. -/
def cfgDefEmpty : ConfigFile :=
  ⟨[⟨"default-instance", [("name", "")], by decide⟩], by decide⟩

/-- One instance section plus a `default-instance` section naming a
nonexistent instance. -/
def cfgBadDefault : ConfigFile :=
  ⟨[⟨"instance-a", itemsA, by decide⟩,
    ⟨"default-instance", [("name", "b")], by decide⟩], by decide⟩

/-- A single section named exactly `instance-default`. -/
def cfgInstDefault : ConfigFile :=
  ⟨[⟨"instance-default", [("hostname", "h")], by decide⟩], by decide⟩

/-- A section named exactly `instance-` (so the instance keyed by the empty
string is defined) plus a `default-instance` section whose `name` option is
the empty string. -/
def cfgEmptyAlias : ConfigFile :=
  ⟨[⟨"instance-", [("hostname", "h")], by decide⟩,
    ⟨"default-instance", [("name", "")], by decide⟩], by decide⟩

/-- Two instance sections plus a `default-instance` section naming the
first one. -/
def cfgGoodDefault : ConfigFile :=
  ⟨[⟨"instance-a", itemsA, by decide⟩, ⟨"instance-b", itemsB, by decide⟩,
    ⟨"default-instance", [("name", "a")], by decide⟩], by decide⟩

/-- A single section named exactly `instance-`. -/
def cfgEmptyName : ConfigFile :=
  ⟨[⟨"instance-", [("hostname", "h")], by decide⟩], by decide⟩

/-- One instance section plus a `default-instance` section whose `name`
option is the empty string. -/
def cfgC8 : ConfigFile :=
  ⟨[⟨"instance-a", itemsA, by decide⟩,
    ⟨"default-instance", [("name", "")], by decide⟩], by decide⟩

end Conf

namespace Conf

/-! Dictionary lemmas. -/

theorem any_key_eq_false {V : Type} {d : List (String × V)} {k : String}
    (h : k ∉ d.map Prod.fst) : d.any (fun p => p.1 == k) = false := by
  simp only [List.any_eq_false, beq_iff_eq]
  intro p hp hpk
  exact h (hpk ▸ List.mem_map_of_mem Prod.fst hp)

theorem dictInsert_of_not_mem {V : Type} {d : List (String × V)} {k : String} (v : V)
    (h : k ∉ d.map Prod.fst) : dictInsert d k v = d ++ [(k, v)] := by
  simp [dictInsert, any_key_eq_false h]

theorem buildDict_go {V : Type} :
    ∀ (l acc : List (String × V)), (((acc ++ l).map Prod.fst)).Nodup →
      l.foldl (fun d p => dictInsert d p.1 p.2) acc = acc ++ l := by
  intro l
  induction l with
  | nil => intro acc _; simp
  | cons p t ih =>
    intro acc h
    have hmem : p.1 ∉ acc.map Prod.fst := by
      intro hk
      have : ¬ ((acc ++ p :: t).map Prod.fst).Nodup := by
        simp only [List.map_append, List.map_cons]
        intro hnd
        rcases List.nodup_append.mp hnd with ⟨_, _, hdisj⟩
        exact hdisj hk (List.mem_cons_self _ _)
      exact this h
    have hstep : dictInsert acc p.1 p.2 = acc ++ [(p.1, p.2)] :=
      dictInsert_of_not_mem p.2 hmem
    have hnext : (((acc ++ [(p.1, p.2)]) ++ t).map Prod.fst).Nodup := by
      simpa [List.append_assoc] using h
    calc (p :: t).foldl (fun d q => dictInsert d q.1 q.2) acc
        = t.foldl (fun d q => dictInsert d q.1 q.2) (acc ++ [(p.1, p.2)]) := by
          simp [hstep]
      _ = (acc ++ [(p.1, p.2)]) ++ t := ih (acc ++ [(p.1, p.2)]) hnext
      _ = acc ++ p :: t := by simp [List.append_assoc]

theorem buildDict_eq_self {V : Type} {l : List (String × V)}
    (h : (l.map Prod.fst).Nodup) : buildDict l = l := by
  simpa [buildDict] using buildDict_go l [] (by simpa using h)

theorem dictGet_eq_none {V : Type} {d : List (String × V)} {k : String}
    (h : k ∉ d.map Prod.fst) : dictGet d k = none := by
  unfold dictGet
  rw [List.find?_eq_none.mpr]
  · rfl
  · intro p hp
    simp only [beq_iff_eq]
    intro hpk
    exact h (hpk ▸ List.mem_map_of_mem Prod.fst hp)

theorem dictGet_of_mem {V : Type} {d : List (String × V)} {k : String} {v : V}
    (hnd : (d.map Prod.fst).Nodup) (h : (k, v) ∈ d) : dictGet d k = some v := by
  induction d with
  | nil => cases h
  | cons p t ih =>
    rcases List.mem_cons.mp h with heq | htail
    · subst heq
      simp [dictGet]
    · have hk : k ∈ t.map Prod.fst := by
        simpa using List.mem_map_of_mem Prod.fst htail
      rw [List.map_cons] at hnd
      rcases List.nodup_cons.mp hnd with ⟨hnm, htnd⟩
      have hp1 : p.1 ≠ k := by
        intro he
        exact hnm (he ▸ hk)
      simpa [dictGet, List.find?_cons_of_neg, hp1] using ih htnd htail

theorem mem_keys_of_dictGet {V : Type} {d : List (String × V)} {k : String} {v : V}
    (h : dictGet d k = some v) : k ∈ d.map Prod.fst := by
  unfold dictGet at h
  rcases Option.map_eq_some'.mp h with ⟨p, hfind, _⟩
  have hp := List.find?_some hfind
  have hmem := List.mem_of_find?_eq_some hfind
  have : p.1 = k := by simpa using hp
  exact this ▸ List.mem_map_of_mem Prod.fst hmem

theorem keys_dictInsert_of_not_mem {V : Type} {d : List (String × V)} {k : String}
    (v : V) (h : k ∉ d.map Prod.fst) :
    (dictInsert d k v).map Prod.fst = d.map Prod.fst ++ [k] := by
  rw [dictInsert_of_not_mem v h]
  simp

/-! String lemmas: Python startswith and slicing. -/

theorem pyStartswith_append (p x : String) : pyStartswith (p ++ x) p = true := by
  simp [pyStartswith, List.take_left]

theorem pyDrop_data_length (p x : String) : pyDrop (p ++ x) p.data.length = x := by
  unfold pyDrop
  rw [String.data_append, List.drop_left]

theorem eq_append_pyDrop {s p : String} (h : pyStartswith s p = true) :
    s = p ++ pyDrop s p.data.length := by
  unfold pyStartswith at h
  have htake : s.data.take p.data.length = p.data := by
    exact eq_of_beq h
  have key : s.data.take p.data.length ++ s.data.drop p.data.length = s.data :=
    List.take_append_drop _ _
  rw [htake] at key
  apply String.ext
  rw [String.data_append]
  exact key.symm

theorem mark_data_length : INSTANCE_NAME_OFFSET = INSTANCE_SECTION_MARK.data.length :=
  rfl

theorem eq_mark_append {s : String} (h : pyStartswith s INSTANCE_SECTION_MARK = true) :
    s = INSTANCE_SECTION_MARK ++ pyDrop s INSTANCE_NAME_OFFSET := by
  rw [mark_data_length]
  exact eq_append_pyDrop h

theorem pyDrop_mark (x : String) :
    pyDrop (INSTANCE_SECTION_MARK ++ x) INSTANCE_NAME_OFFSET = x := by
  rw [mark_data_length]
  exact pyDrop_data_length _ x

/-! Structural lemmas: the instance table before default aliasing. -/

theorem sections_filter (c : ConfigFile) :
    (sections c).filter (fun s => pyStartswith s INSTANCE_SECTION_MARK) =
      (instanceSections c).map ConfigSection.name := by
  unfold sections instanceSections
  rw [List.filter_map]
  rfl

theorem instanceSections_names_nodup (c : ConfigFile) :
    ((instanceSections c).map ConfigSection.name).Nodup := by
  apply List.Nodup.sublist _ c.namesNodup
  exact List.Sublist.map ConfigSection.name (List.filter_sublist c.sectionList)

theorem mem_instanceSections {c : ConfigFile} {s : ConfigSection} :
    s ∈ instanceSections c ↔
      s ∈ c.sectionList ∧ pyStartswith s.name INSTANCE_SECTION_MARK = true := by
  unfold instanceSections
  exact List.mem_filter

theorem mark_of_mem_instanceSections {c : ConfigFile} {s : ConfigSection}
    (h : s ∈ instanceSections c) :
    pyStartswith s.name INSTANCE_SECTION_MARK = true :=
  (mem_instanceSections.mp h).2

theorem instanceNames_eq (c : ConfigFile) :
    instanceNames c =
      (instanceSections c).map (fun s => pyDrop s.name INSTANCE_NAME_OFFSET) := by
  unfold instanceNames
  rw [sections_filter, List.map_map]
  rfl

theorem instanceNames_nodup (c : ConfigFile) : (instanceNames c).Nodup := by
  rw [instanceNames_eq]
  have hinj := List.inj_on_of_nodup_map (instanceSections_names_nodup c)
  have hnodup : (instanceSections c).Nodup :=
    List.Nodup.of_map ConfigSection.name (instanceSections_names_nodup c)
  apply List.Nodup.map_on _ hnodup
  intro x hx y hy hxy
  apply hinj hx hy
  have hmx := mark_of_mem_instanceSections hx
  have hmy := mark_of_mem_instanceSections hy
  calc x.name = INSTANCE_SECTION_MARK ++ pyDrop x.name INSTANCE_NAME_OFFSET :=
        eq_mark_append hmx
    _ = INSTANCE_SECTION_MARK ++ pyDrop y.name INSTANCE_NAME_OFFSET := by rw [hxy]
    _ = y.name := (eq_mark_append hmy).symm

theorem baseTable_keys (c : ConfigFile) :
    (baseTable c).map Prod.fst = instanceNames c := by
  rw [instanceNames_eq]
  unfold baseTable
  rw [List.map_map]
  rfl

theorem baseTable_keys_nodup (c : ConfigFile) :
    ((baseTable c).map Prod.fst).Nodup := by
  rw [baseTable_keys]
  exact instanceNames_nodup c

theorem find?_name_eq {l : List ConfigSection}
    (hnd : (l.map ConfigSection.name).Nodup) {s : ConfigSection} (h : s ∈ l) :
    l.find? (fun sec => sec.name == s.name) = some s := by
  induction l with
  | nil => cases h
  | cons p t ih =>
    rw [List.map_cons] at hnd
    rcases List.nodup_cons.mp hnd with ⟨hnm, htnd⟩
    rcases List.mem_cons.mp h with heq | htail
    · subst heq
      simp
    · have hne : p.name ≠ s.name := by
        intro he
        exact hnm (he ▸ List.mem_map_of_mem ConfigSection.name htail)
      rw [List.find?_cons_of_neg _ (by simpa using hne)]
      exact ih htnd htail

theorem configItems_of_mem (c : ConfigFile) {s : ConfigSection}
    (h : s ∈ c.sectionList) : configItems c s.name = s.items := by
  unfold configItems
  rw [find?_name_eq c.namesNodup h]

theorem jira_base_eq (c : ConfigFile) :
    buildDict (((sections c).filter
        (fun s => pyStartswith s INSTANCE_SECTION_MARK)).map
      (fun s => (pyDrop s INSTANCE_NAME_OFFSET, buildDict (configItems c s)))) =
    baseTable c := by
  rw [sections_filter, List.map_map]
  have hmap : (instanceSections c).map
      ((fun s => (pyDrop s INSTANCE_NAME_OFFSET, buildDict (configItems c s))) ∘
        ConfigSection.name) = baseTable c := by
    unfold baseTable
    apply List.map_congr_left
    intro s hs
    have hmem : s ∈ c.sectionList := (mem_instanceSections.mp hs).1
    show (pyDrop s.name INSTANCE_NAME_OFFSET, buildDict (configItems c s.name)) = _
    rw [configItems_of_mem c hmem, buildDict_eq_self s.itemsNodup]
  rw [hmap, buildDict_eq_self (baseTable_keys_nodup c)]

theorem defaultAlias_spec (c : ConfigFile) :
    defaultAlias c =
      if has_section c DEFAULT_INSTANCE_SECTION
          && has_option c DEFAULT_INSTANCE_SECTION "name" then
        configGet c DEFAULT_INSTANCE_SECTION "name"
      else none :=
  rfl

theorem get_jira_instances_eq (c : ConfigFile) :
    get_jira_instances c =
      match defaultAlias c with
      | none => some (baseTable c)
      | some d =>
        if d = "" then some (baseTable c)
        else
          match dictGet (baseTable c) d with
          | some v => some (dictInsert (baseTable c) "default" v)
          | none => none := by
  simp only [get_jira_instances]
  rw [jira_base_eq, ← defaultAlias_spec]

theorem dictGet_baseTable_some {c : ConfigFile} {sec : ConfigSection}
    (h : sec ∈ c.sectionList)
    (hm : pyStartswith sec.name INSTANCE_SECTION_MARK = true) :
    dictGet (baseTable c) (pyDrop sec.name INSTANCE_NAME_OFFSET) =
      some sec.items := by
  apply dictGet_of_mem (baseTable_keys_nodup c)
  unfold baseTable
  exact List.mem_map_of_mem _ (mem_instanceSections.mpr ⟨h, hm⟩)

theorem dictGet_baseTable_none {c : ConfigFile} {k : String}
    (h : k ∉ instanceNames c) : dictGet (baseTable c) k = none := by
  apply dictGet_eq_none
  rw [baseTable_keys]
  exact h

theorem mem_instanceNames_iff (c : ConfigFile) (k : String) :
    k ∈ instanceNames c ↔
      ∃ sec ∈ c.sectionList, sec.name = INSTANCE_SECTION_MARK ++ k := by
  rw [instanceNames_eq]
  constructor
  · intro hk
    rcases List.mem_map.mp hk with ⟨s, hs, he⟩
    refine ⟨s, (mem_instanceSections.mp hs).1, ?_⟩
    rw [← he]
    exact eq_mark_append (mark_of_mem_instanceSections hs)
  · rintro ⟨s, hs, hname⟩
    have hm : pyStartswith s.name INSTANCE_SECTION_MARK = true := by
      rw [hname]
      exact pyStartswith_append _ _
    have hmem : s ∈ instanceSections c := mem_instanceSections.mpr ⟨hs, hm⟩
    have : pyDrop s.name INSTANCE_NAME_OFFSET = k := by
      rw [hname]
      exact pyDrop_mark k
    exact this ▸ List.mem_map_of_mem _ hmem

/-! Further dictionary lemmas. -/

theorem dictGet_ne_none {V : Type} {d : List (String × V)} {k : String}
    (h : k ∈ d.map Prod.fst) : dictGet d k ≠ none := by
  rcases List.mem_map.mp h with ⟨p, hp, hpk⟩
  unfold dictGet
  intro hcon
  rcases Option.map_eq_none'.mp hcon with hfind
  have := List.find?_eq_none.mp hfind p hp
  simp only [beq_iff_eq] at this
  exact this hpk

theorem mem_keys_iff_dictGet {V : Type} {d : List (String × V)} {k : String} :
    k ∈ d.map Prod.fst ↔ dictGet d k ≠ none := by
  constructor
  · exact dictGet_ne_none
  · intro h
    by_contra hk
    exact h (dictGet_eq_none hk)

theorem dictGet_cons {V : Type} (q : String × V) (t : List (String × V))
    (k : String) :
    dictGet (q :: t) k = if q.1 = k then some q.2 else dictGet t k := by
  by_cases h : q.1 = k
  · have hb : (fun p : String × V => p.1 == k) q = true := by simpa using h
    unfold dictGet
    rw [List.find?_cons_of_pos t hb, if_pos h]
    rfl
  · have hb : ¬ ((fun p : String × V => p.1 == k) q = true) := by simpa using h
    unfold dictGet
    rw [List.find?_cons_of_neg t hb, if_neg h]

theorem dictGet_map_replace {V : Type} (d : List (String × V)) {k x : String}
    (v : V) (hx : x ≠ k) :
    dictGet (d.map (fun q => if q.1 == k then (k, v) else q)) x = dictGet d x := by
  induction d with
  | nil => rfl
  | cons q t ih =>
    rw [List.map_cons, dictGet_cons, dictGet_cons]
    by_cases hqk : q.1 = k
    · have h1 : (if (q.1 == k) = true then (k, v) else q) = (k, v) := by
        simp [hqk]
      rw [h1]
      rw [if_neg (show ¬ ((k, v).1 = x) from fun he => hx he.symm)]
      rw [if_neg (show ¬ (q.1 = x) from fun he => hx (he.symm.trans hqk))]
      exact ih
    · have h1 : (if (q.1 == k) = true then (k, v) else q) = q := by
        simp [hqk]
      rw [h1]
      by_cases hqx : q.1 = x
      · rw [if_pos hqx, if_pos hqx]
      · rw [if_neg hqx, if_neg hqx]
        exact ih

theorem dictGet_dictInsert_ne {V : Type} {d : List (String × V)}
    {k x : String} (v : V) (hx : x ≠ k) :
    dictGet (dictInsert d k v) x = dictGet d x := by
  unfold dictInsert
  by_cases hmem : d.any (fun p => p.1 == k) = true
  · rw [if_pos hmem]
    exact dictGet_map_replace d v hx
  · rw [if_neg hmem]
    unfold dictGet
    rw [List.find?_append]
    have h2 : [(k, v)].find? (fun p => p.1 == x) = none := by
      rw [List.find?_singleton]
      have hb : ¬ (((k, v).1 == x) = true) := by
        simpa using fun he => hx (Eq.symm he)
      rw [if_neg hb]
    rw [h2, Option.or_none]

theorem mem_keys_dictInsert_iff {V : Type} {d : List (String × V)}
    {k x : String} (v : V) :
    x ∈ (dictInsert d k v).map Prod.fst ↔ x = k ∨ x ∈ d.map Prod.fst := by
  unfold dictInsert
  by_cases hmem : d.any (fun p => p.1 == k) = true
  · rw [if_pos hmem]
    have hkeys : (d.map (fun p => if p.1 == k then (k, v) else p)).map Prod.fst =
        d.map Prod.fst := by
      rw [List.map_map]
      apply List.map_congr_left
      intro p _
      by_cases hpk : p.1 = k
      · simp [hpk]
      · simp [hpk]
    rw [hkeys]
    constructor
    · exact Or.inr
    · rintro (he | hin)
      · subst he
        rcases List.any_eq_true.mp hmem with ⟨p, hp, hpk⟩
        simp only [beq_iff_eq] at hpk
        exact hpk ▸ List.mem_map_of_mem Prod.fst hp
      · exact hin
  · rw [if_neg hmem]
    rw [List.map_append]
    simp only [List.mem_append, List.map_cons, List.map_nil,
      List.mem_singleton]
    constructor
    · rintro (hin | he)
      · exact Or.inr hin
      · exact Or.inl he
    · rintro (he | hin)
      · exact Or.inr he
      · exact Or.inl hin

theorem dictGet_append_of_some {V : Type} {d e : List (String × V)}
    {k : String} {v : V} (h : dictGet d k = some v) :
    dictGet (d ++ e) k = some v := by
  unfold dictGet at h ⊢
  rw [List.find?_append]
  rcases Option.map_eq_some'.mp h with ⟨p, hfind, hp⟩
  rw [hfind]
  simp [hp]

theorem dictGet_append_of_none {V : Type} {d e : List (String × V)}
    {k : String} (h : dictGet d k = none) :
    dictGet (d ++ e) k = dictGet e k := by
  unfold dictGet at h ⊢
  rcases Option.map_eq_none'.mp h with hfind
  rw [List.find?_append, hfind, Option.none_or]

/-! The default-alias computation. -/

theorem has_option_of_configGet {c : ConfigFile} {s o d : String}
    (h : configGet c s o = some d) : has_option c s o = true := by
  unfold configGet at h
  have hmem := mem_keys_of_dictGet h
  rcases List.mem_map.mp hmem with ⟨p, hp, hpo⟩
  unfold has_option
  rw [List.any_eq_true]
  exact ⟨p, hp, by simp [hpo]⟩

theorem defaultAlias_eq_some {c : ConfigFile} {d : String}
    (hs : has_section c DEFAULT_INSTANCE_SECTION = true)
    (hname : configGet c DEFAULT_INSTANCE_SECTION "name" = some d) :
    defaultAlias c = some d := by
  rw [defaultAlias_spec, hs, has_option_of_configGet hname]
  simpa using hname

theorem defaultAlias_eq_none {c : ConfigFile}
    (hs : has_section c DEFAULT_INSTANCE_SECTION = false) :
    defaultAlias c = none := by
  rw [defaultAlias_spec, hs]
  rfl

theorem get_jira_instances_of_no_alias {c : ConfigFile}
    (ha : defaultAlias c = none) :
    get_jira_instances c = some (baseTable c) := by
  rw [get_jira_instances_eq, ha]

theorem get_jira_instances_of_empty_alias {c : ConfigFile}
    (ha : defaultAlias c = some "") :
    get_jira_instances c = some (baseTable c) := by
  rw [get_jira_instances_eq, ha]
  rfl

theorem get_jira_instances_alias_found {c : ConfigFile} {d : String}
    {v : List (String × String)} (ha : defaultAlias c = some d) (hne : d ≠ "")
    (hv : dictGet (baseTable c) d = some v) :
    get_jira_instances c = some (dictInsert (baseTable c) "default" v) := by
  rw [get_jira_instances_eq, ha]
  simp [hne, hv]

theorem get_jira_instances_alias_missing {c : ConfigFile} {d : String}
    (ha : defaultAlias c = some d) (hne : d ≠ "")
    (hv : dictGet (baseTable c) d = none) :
    get_jira_instances c = none := by
  rw [get_jira_instances_eq, ha]
  simp [hne, hv]

/-- Whenever the table is produced, looking up a key other than `default`
in it is the same as looking it up in the pre-aliasing table. -/
theorem dictGet_of_get_some {c : ConfigFile}
    {t : List (String × List (String × String))}
    (ht : get_jira_instances c = some t) {k : String} (hk : k ≠ "default") :
    dictGet t k = dictGet (baseTable c) k := by
  cases ha : defaultAlias c with
  | none =>
    rw [get_jira_instances_of_no_alias ha] at ht
    cases Option.some.inj ht
    rfl
  | some d =>
    by_cases hd : d = ""
    · subst hd
      rw [get_jira_instances_of_empty_alias ha] at ht
      cases Option.some.inj ht
      rfl
    · cases hv : dictGet (baseTable c) d with
      | none =>
        rw [get_jira_instances_alias_missing ha hd hv] at ht
        cases ht
      | some v =>
        rw [get_jira_instances_alias_found ha hd hv] at ht
        cases Option.some.inj ht
        exact dictGet_dictInsert_ne v hk

/-- Whenever the table is produced, its keys other than `default` are
exactly the discovered instance names. -/
theorem mem_keys_of_get_some {c : ConfigFile}
    {t : List (String × List (String × String))}
    (ht : get_jira_instances c = some t) {k : String} (hk : k ≠ "default") :
    k ∈ t.map Prod.fst ↔ k ∈ instanceNames c := by
  rw [mem_keys_iff_dictGet, dictGet_of_get_some ht hk,
    ← mem_keys_iff_dictGet, baseTable_keys]

/-- When the section names covered by the filter are given as a marked key
list, the discovered instance names are exactly those keys. -/
theorem instanceNames_of_sections {c : ConfigFile} {Xs : List String}
    (hsec : (sections c).filter (fun s => pyStartswith s INSTANCE_SECTION_MARK) =
      Xs.map (fun X => INSTANCE_SECTION_MARK ++ X)) :
    instanceNames c = Xs := by
  unfold instanceNames
  rw [hsec, List.map_map]
  have : ∀ X ∈ Xs,
      ((fun s => pyDrop s INSTANCE_NAME_OFFSET) ∘
        (fun X => INSTANCE_SECTION_MARK ++ X)) X = X := by
    intro X _
    exact pyDrop_mark X
  rw [List.map_congr_left this]
  simp

theorem has_section_of_mem {c : ConfigFile} {n : String} (h : n ∈ sections c) :
    has_section c n = true := by
  unfold has_section
  exact List.elem_eq_true_of_mem h

theorem get_jira_instance_eq_of_some {c : ConfigFile}
    {t : List (String × List (String × String))}
    (ht : get_jira_instances c = some t) (name : Option String) :
    get_jira_instance name c = dictGet t (pyOrElse name "default") := by
  unfold get_jira_instance
  rw [ht]

theorem dictGet_baseTable_of_memNames {c : ConfigFile} {X : String}
    (hmemN : X ∈ instanceNames c) :
    dictGet (baseTable c) X =
      some (configItems c (INSTANCE_SECTION_MARK ++ X)) := by
  rcases (mem_instanceNames_iff c X).mp hmemN with ⟨sec, hsm, hsn⟩
  have hm : pyStartswith sec.name INSTANCE_SECTION_MARK = true := by
    rw [hsn]
    exact pyStartswith_append _ _
  have hd := dictGet_baseTable_some hsm hm
  have hdrop : pyDrop sec.name INSTANCE_NAME_OFFSET = X := by
    rw [hsn]
    exact pyDrop_mark X
  rw [hdrop] at hd
  rw [hd, ← hsn, configItems_of_mem c hsm]

theorem countP_name_eq_one {l : List ConfigSection} {n : String}
    (hnd : (l.map ConfigSection.name).Nodup) :
    l.countP (fun s => s.name == n) = 1 ↔ ∃ s ∈ l, s.name = n := by
  induction l with
  | nil => simp
  | cons p t ih =>
    rw [List.map_cons] at hnd
    rcases List.nodup_cons.mp hnd with ⟨hnm, htnd⟩
    by_cases hpn : p.name = n
    · have hzero : t.countP (fun s => s.name == n) = 0 := by
        rw [List.countP_eq_zero]
        intro s hs
        simp only [beq_iff_eq]
        intro he
        exact hnm ((hpn ▸ he : s.name = p.name) ▸
          List.mem_map_of_mem ConfigSection.name hs)
      have hpos : (fun s : ConfigSection => s.name == n) p = true := by
        simpa using hpn
      rw [List.countP_cons_of_pos (fun s : ConfigSection => s.name == n) t hpos,
        hzero]
      simp only [Nat.zero_add, true_iff]
      exact ⟨p, List.mem_cons_self _ _, hpn⟩
    · have hneg : ¬ ((fun s : ConfigSection => s.name == n) p = true) := by
        simpa using hpn
      rw [List.countP_cons_of_neg (fun s : ConfigSection => s.name == n) t hneg]
      rw [ih htnd]
      constructor
      · rintro ⟨s, hs, he⟩
        exact ⟨s, List.mem_cons_of_mem p hs, he⟩
      · rintro ⟨s, hs, he⟩
        rcases List.mem_cons.mp hs with hsp | hst
        · exact absurd (hsp ▸ he) hpn
        · exact ⟨s, hst, he⟩

/-! The claims. -/

/-- Claim C1, counterexample: in a configuration whose `default-instance`
section sets the `name` option to the empty string, the value is not among
the discovered instance names (there are none), yet `get_jira_instances`
returns a table instead of failing with a missing-key error. -/
theorem C1_counterexample :
    has_section cfgDefEmpty DEFAULT_INSTANCE_SECTION = true ∧
    configGet cfgDefEmpty DEFAULT_INSTANCE_SECTION "name" = some "" ∧
    "" ∉ instanceNames cfgDefEmpty ∧
    get_jira_instances cfgDefEmpty = some [] := by decide

/-- Claim C1, amended: if the `default-instance` section sets the `name`
option to a NON-EMPTY value that is not among the discovered instance
names, `get_jira_instances` fails with a missing-key error (`none`). -/
theorem C1_missing_default_fails (c : ConfigFile) (d : String)
    (hs : has_section c DEFAULT_INSTANCE_SECTION = true)
    (hname : configGet c DEFAULT_INSTANCE_SECTION "name" = some d)
    (hne : d ≠ "") (hmiss : d ∉ instanceNames c) :
    get_jira_instances c = none := by
  apply get_jira_instances_alias_missing (defaultAlias_eq_some hs hname) hne
  exact dictGet_baseTable_none hmiss

/-- Claim C1, witness: the amended theorem applied to a configuration whose
default alias `b` names no instance. -/
theorem C1_witness :
    has_section cfgBadDefault DEFAULT_INSTANCE_SECTION = true ∧
    configGet cfgBadDefault DEFAULT_INSTANCE_SECTION "name" = some "b" ∧
    "b" ≠ "" ∧ "b" ∉ instanceNames cfgBadDefault ∧
    get_jira_instances cfgBadDefault = none :=
  ⟨by decide, by decide, by decide, by decide,
    C1_missing_default_fails cfgBadDefault "b" (by decide) (by decide)
      (by decide) (by decide)⟩

/-- Claim C6: a missing or empty configuration file parses to a
configuration with no sections; on it `get_jira_instances` returns the
empty table and `get_jira_instance` with no name fails with a missing-key
error. -/
theorem C6_empty_config :
    get_jira_instances emptyConfig = some [] ∧
    get_jira_instance none emptyConfig = none := by decide

/-- Claim C8: if the `default-instance` section has a `name` option whose
value is the empty string, `get_jira_instances` raises no error and adds
no `default` key: it returns exactly the pre-aliasing table, whose keys are
exactly the discovered instance names, even though no instance named by the
empty string exists. -/
theorem C8_empty_alias_ignored (c : ConfigFile)
    (hs : has_section c DEFAULT_INSTANCE_SECTION = true)
    (hname : configGet c DEFAULT_INSTANCE_SECTION "name" = some "")
    (_hnoinst : "" ∉ instanceNames c) :
    get_jira_instances c = some (baseTable c) ∧
    (baseTable c).map Prod.fst = instanceNames c := by
  exact ⟨get_jira_instances_of_empty_alias (defaultAlias_eq_some hs hname),
    baseTable_keys c⟩

/-- Claim C8, witness: the theorem applied to a configuration with one
instance `a` and an empty default alias. -/
theorem C8_witness :
    get_jira_instances cfgC8 = some (baseTable cfgC8) ∧
    (baseTable cfgC8).map Prod.fst = instanceNames cfgC8 :=
  C8_empty_alias_ignored cfgC8 (by decide) (by decide) (by decide)

/-- Claim C9: calling `get_jira_instance` with the empty string behaves
exactly like calling it with no name: the lookup key becomes the literal
`default` (so an entry keyed by the empty string is never consulted). -/
theorem C9_empty_name_is_default (c : ConfigFile) :
    get_jira_instance (some "") c = get_jira_instance none c ∧
    get_jira_instance (some "") c =
      (get_jira_instances c).bind (fun t => dictGet t "default") := by
  unfold get_jira_instance
  cases get_jira_instances c with
  | none => exact ⟨rfl, rfl⟩
  | some t => exact ⟨rfl, rfl⟩

/-- Claim C10: a section named exactly `instance-` passes the marker filter
and yields a table entry keyed by the empty string that maps to the section
options. -/
theorem C10_bare_marker_section (c : ConfigFile)
    (t : List (String × List (String × String))) (sec : ConfigSection)
    (ht : get_jira_instances c = some t)
    (hmem : sec ∈ c.sectionList) (hname : sec.name = INSTANCE_SECTION_MARK) :
    pyStartswith sec.name INSTANCE_SECTION_MARK = true ∧
    dictGet t "" = some sec.items := by
  have hm : pyStartswith sec.name INSTANCE_SECTION_MARK = true := by
    rw [hname]
    decide
  refine ⟨hm, ?_⟩
  have hd : pyDrop sec.name INSTANCE_NAME_OFFSET = "" := by
    rw [hname]
    decide
  have hbase := dictGet_baseTable_some hmem hm
  rw [hd] at hbase
  rw [dictGet_of_get_some ht (by decide), hbase]

/-- Claim C10, witness: the theorem applied to a configuration holding only
the bare-marker section. -/
theorem C10_witness :
    pyStartswith (ConfigSection.name
        ⟨"instance-", [("hostname", "h")], by decide⟩)
      INSTANCE_SECTION_MARK = true ∧
    dictGet [("", [("hostname", "h")])] "" = some
      (ConfigSection.items ⟨"instance-", [("hostname", "h")], by decide⟩) :=
  C10_bare_marker_section cfgEmptyName [("", [("hostname", "h")])]
    ⟨"instance-", [("hostname", "h")], by decide⟩ (by decide) (by decide)
    (by decide)

/-- Claim C2, counterexample: a file with the single section
`instance-default` and no `default-instance` section (so N = 1 and
X1 = `default`) produces a table that DOES carry the key `default`,
contradicting the claim that no `default` key is present. -/
theorem C2_counterexample :
    has_section cfgInstDefault DEFAULT_INSTANCE_SECTION = false ∧
    sections cfgInstDefault = ["instance-default"] ∧
    get_jira_instances cfgInstDefault =
      some [("default", [("hostname", "h")])] ∧
    dictGet [("default", [("hostname", "h")])] "default" ≠ none := by decide

/-- Claim C2, amended: for a configuration whose marked sections are
exactly `instance-X1 .. instance-XN` with no Xi equal to the literal
`default`, and with no `default-instance` section, `get_jira_instances`
returns a table keyed exactly by X1 .. XN, each key mapping to the options
of its own section, with no `default` key. -/
theorem C2_no_default_section (c : ConfigFile) (Xs : List String)
    (hsec : (sections c).filter (fun s => pyStartswith s INSTANCE_SECTION_MARK) =
      Xs.map (fun X => INSTANCE_SECTION_MARK ++ X))
    (hnodef : has_section c DEFAULT_INSTANCE_SECTION = false)
    (hX : "default" ∉ Xs) :
    ∃ t, get_jira_instances c = some t ∧
      t.map Prod.fst = Xs ∧
      (∀ X ∈ Xs, dictGet t X =
        some (configItems c (INSTANCE_SECTION_MARK ++ X))) ∧
      dictGet t "default" = none := by
  have hXs : instanceNames c = Xs := instanceNames_of_sections hsec
  have ha : defaultAlias c = none := defaultAlias_eq_none hnodef
  refine ⟨baseTable c, get_jira_instances_of_no_alias ha, ?_, ?_, ?_⟩
  · rw [baseTable_keys, hXs]
  · intro X hXmem
    exact dictGet_baseTable_of_memNames (hXs ▸ hXmem)
  · apply dictGet_baseTable_none
    rw [hXs]
    exact hX

/-- Claim C2, witness: the amended theorem applied to a two-instance
configuration with no default section. -/
theorem C2_witness :
    ∃ t, get_jira_instances cfgTwo = some t ∧
      t.map Prod.fst = ["a", "b"] ∧
      (∀ X ∈ ["a", "b"], dictGet t X =
        some (configItems cfgTwo (INSTANCE_SECTION_MARK ++ X))) ∧
      dictGet t "default" = none :=
  C2_no_default_section cfgTwo ["a", "b"] (by decide) (by decide) (by decide)

/-- Claim C3, counterexample: with a section named exactly `instance-` the
empty string IS among the defined instance names, and the
`default-instance` section names it (`name` set to the empty string), yet
`get_jira_instances` returns the table WITHOUT any `default` entry. -/
theorem C3_counterexample :
    has_section cfgEmptyAlias DEFAULT_INSTANCE_SECTION = true ∧
    configGet cfgEmptyAlias DEFAULT_INSTANCE_SECTION "name" = some "" ∧
    "" ∈ instanceNames cfgEmptyAlias ∧
    get_jira_instances cfgEmptyAlias = some [("", [("hostname", "h")])] ∧
    dictGet [("", [("hostname", "h")])] "default" = none := by decide

/-- Claim C3, amended: for a configuration whose marked sections are
exactly `instance-X1 .. instance-XN` (no Xi equal to the literal
`default`), if the `default-instance` section names a NON-EMPTY X1 among
X1 .. XN, the returned table holds the N instance entries plus an entry
keyed `default` whose contents equal the entry keyed X1. -/
theorem C3_default_alias (c : ConfigFile) (Xs : List String) (X1 : String)
    (hsec : (sections c).filter (fun s => pyStartswith s INSTANCE_SECTION_MARK) =
      Xs.map (fun X => INSTANCE_SECTION_MARK ++ X))
    (hXd : "default" ∉ Xs)
    (hmem : X1 ∈ Xs) (hne : X1 ≠ "")
    (hs : has_section c DEFAULT_INSTANCE_SECTION = true)
    (hname : configGet c DEFAULT_INSTANCE_SECTION "name" = some X1) :
    ∃ t, get_jira_instances c = some t ∧
      t.map Prod.fst = Xs ++ ["default"] ∧
      (∀ X ∈ Xs, dictGet t X =
        some (configItems c (INSTANCE_SECTION_MARK ++ X))) ∧
      dictGet t "default" = dictGet t X1 ∧
      dictGet t X1 ≠ none := by
  have hXs : instanceNames c = Xs := instanceNames_of_sections hsec
  have ha : defaultAlias c = some X1 := defaultAlias_eq_some hs hname
  have hX1d : X1 ≠ "default" := fun he => hXd (he ▸ hmem)
  have hv : dictGet (baseTable c) X1 =
      some (configItems c (INSTANCE_SECTION_MARK ++ X1)) :=
    dictGet_baseTable_of_memNames (hXs ▸ hmem)
  have hget := get_jira_instances_alias_found ha hne hv
  have hdmem : "default" ∉ (baseTable c).map Prod.fst := by
    rw [baseTable_keys, hXs]
    exact hXd
  have hins : dictInsert (baseTable c) "default"
        (configItems c (INSTANCE_SECTION_MARK ++ X1)) =
      baseTable c ++ [("default", configItems c (INSTANCE_SECTION_MARK ++ X1))] :=
    dictInsert_of_not_mem _ hdmem
  refine ⟨_, hget, ?_, ?_, ?_, ?_⟩
  · rw [hins, List.map_append, baseTable_keys, hXs]
    rfl
  · intro X hXmem
    have hXd2 : X ≠ "default" := fun he => hXd (he ▸ hXmem)
    rw [dictGet_dictInsert_ne _ hXd2]
    exact dictGet_baseTable_of_memNames (hXs ▸ hXmem)
  · have hleft : dictGet (dictInsert (baseTable c) "default"
        (configItems c (INSTANCE_SECTION_MARK ++ X1))) "default" =
        some (configItems c (INSTANCE_SECTION_MARK ++ X1)) := by
      rw [hins]
      rw [dictGet_append_of_none (dictGet_eq_none hdmem), dictGet_cons]
      rfl
    have hright : dictGet (dictInsert (baseTable c) "default"
        (configItems c (INSTANCE_SECTION_MARK ++ X1))) X1 =
        some (configItems c (INSTANCE_SECTION_MARK ++ X1)) := by
      rw [dictGet_dictInsert_ne _ hX1d]
      exact hv
    rw [hleft, hright]
  · rw [dictGet_dictInsert_ne _ hX1d, hv]
    simp

/-- Claim C3, witness: the amended theorem applied to a two-instance
configuration whose default names instance `a`. -/
theorem C3_witness :
    ∃ t, get_jira_instances cfgGoodDefault = some t ∧
      t.map Prod.fst = ["a", "b"] ++ ["default"] ∧
      (∀ X ∈ ["a", "b"], dictGet t X =
        some (configItems cfgGoodDefault (INSTANCE_SECTION_MARK ++ X))) ∧
      dictGet t "default" = dictGet t "a" ∧
      dictGet t "a" ≠ none :=
  C3_default_alias cfgGoodDefault ["a", "b"] "a" (by decide) (by decide)
    (by decide) (by decide) (by decide) (by decide)

/-- Claim C4, counterexample: in a configuration whose only section is the
bare marker `instance-`, the instance name that is the empty string is
present in the table, yet `get_jira_instance` on that name does not return
the options of section `instance-` — it fails, because the empty string is
replaced by the lookup key `default`. -/
theorem C4_counterexample :
    get_jira_instances cfgEmptyName = some [("", [("hostname", "h")])] ∧
    configItems cfgEmptyName "instance-" = [("hostname", "h")] ∧
    get_jira_instance (some "") cfgEmptyName = none := by decide

/-- Claim C4, amended: for every configuration and every NON-EMPTY instance
name in the produced table other than the literal `default`, the section
`instance-<name>` exists and `get_jira_instance` on that name returns
exactly that section option/value mapping, unchanged. -/
theorem C4_roundtrip (c : ConfigFile)
    (t : List (String × List (String × String))) (X : String)
    (ht : get_jira_instances c = some t)
    (hmem : X ∈ t.map Prod.fst) (hne : X ≠ "") (hnd : X ≠ "default") :
    has_section c (INSTANCE_SECTION_MARK ++ X) = true ∧
    get_jira_instance (some X) c =
      some (configItems c (INSTANCE_SECTION_MARK ++ X)) := by
  have hmemN : X ∈ instanceNames c := (mem_keys_of_get_some ht hnd).mp hmem
  rcases (mem_instanceNames_iff c X).mp hmemN with ⟨sec, hsm, hsn⟩
  constructor
  · exact has_section_of_mem
      (hsn ▸ List.mem_map_of_mem ConfigSection.name hsm)
  · rw [get_jira_instance_eq_of_some ht (some X)]
    have hkey : pyOrElse (some X) "default" = X := by
      simp [pyOrElse, hne]
    rw [hkey, dictGet_of_get_some ht hnd]
    exact dictGet_baseTable_of_memNames hmemN

/-- Claim C4, witness: the amended theorem applied to the two-instance
configuration and name `a`. -/
theorem C4_witness :
    has_section cfgTwo (INSTANCE_SECTION_MARK ++ "a") = true ∧
    get_jira_instance (some "a") cfgTwo =
      some (configItems cfgTwo (INSTANCE_SECTION_MARK ++ "a")) :=
  C4_roundtrip cfgTwo [("a", itemsA), ("b", itemsB)] "a" (by decide)
    (by decide) (by decide) (by decide)

/-- Claim C5, counterexample: with instances `a`, `b` and default alias
`a`, the name that is the empty string is absent from the table, yet
`get_jira_instance` on it does not fail — it falls back to the `default`
entry and returns the options of instance `a`. -/
theorem C5_counterexample :
    get_jira_instances cfgGoodDefault =
      some [("a", itemsA), ("b", itemsB), ("default", itemsA)] ∧
    dictGet [("a", itemsA), ("b", itemsB), ("default", itemsA)] "" = none ∧
    get_jira_instance (some "") cfgGoodDefault = some itemsA := by decide

/-- Claim C5, amended: whenever the table is produced,
`get_jira_instance` with no name looks up the literal key `default` (and
fails with a missing-key error when that key is absent), and with a
NON-EMPTY name fails with a missing-key error when that name is absent
from the table. -/
theorem C5_missing_lookup (c : ConfigFile)
    (t : List (String × List (String × String)))
    (ht : get_jira_instances c = some t) :
    (get_jira_instance none c = dictGet t "default") ∧
    (dictGet t "default" = none → get_jira_instance none c = none) ∧
    (∀ n, n ≠ "" → dictGet t n = none →
      get_jira_instance (some n) c = none) := by
  have h0 := get_jira_instance_eq_of_some ht none
  refine ⟨h0, ?_, ?_⟩
  · intro hd
    rw [h0]
    exact hd
  · intro n hn hd
    rw [get_jira_instance_eq_of_some ht (some n)]
    have hkey : pyOrElse (some n) "default" = n := by
      simp [pyOrElse, hn]
    rw [hkey]
    exact hd

/-- Claim C5, witness: the amended theorem applied to the two-instance
configuration with no default entry. -/
theorem C5_witness :
    (get_jira_instance none cfgTwo =
      dictGet [("a", itemsA), ("b", itemsB)] "default") ∧
    (dictGet [("a", itemsA), ("b", itemsB)] "default" = none →
      get_jira_instance none cfgTwo = none) ∧
    (∀ n, n ≠ "" → dictGet [("a", itemsA), ("b", itemsB)] n = none →
      get_jira_instance (some n) cfgTwo = none) :=
  C5_missing_lookup cfgTwo [("a", itemsA), ("b", itemsB)] (by decide)

/-- Claim C7: whenever `get_jira_instances` produces a table, a key other
than the literal `default` is in the table exactly when the configuration
holds exactly one section whose name is the marker `instance-` followed by
that key. -/
theorem C7_key_section_bijection (c : ConfigFile)
    (t : List (String × List (String × String))) (k : String)
    (ht : get_jira_instances c = some t) (hk : k ≠ "default") :
    k ∈ t.map Prod.fst ↔
      c.sectionList.countP
        (fun s => s.name == INSTANCE_SECTION_MARK ++ k) = 1 := by
  rw [mem_keys_of_get_some ht hk, mem_instanceNames_iff,
    countP_name_eq_one c.namesNodup]

/-- Claim C7, witness: the theorem applied to the aliased two-instance
configuration and key `a`. -/
theorem C7_witness :
    "a" ∈ ([("a", itemsA), ("b", itemsB), ("default", itemsA)].map
      Prod.fst) ↔
      cfgGoodDefault.sectionList.countP
        (fun s => s.name == INSTANCE_SECTION_MARK ++ "a") = 1 :=
  C7_key_section_bijection cfgGoodDefault
    [("a", itemsA), ("b", itemsB), ("default", itemsA)] "a" (by decide)
    (by decide)

/-- Claim C9, witness: the equalities instantiated at the aliased
two-instance configuration. -/
theorem C9_witness :
    get_jira_instance (some "") cfgGoodDefault =
      get_jira_instance none cfgGoodDefault ∧
    get_jira_instance (some "") cfgGoodDefault =
      (get_jira_instances cfgGoodDefault).bind (fun t => dictGet t "default") :=
  C9_empty_name_is_default cfgGoodDefault

end Conf
